import Mathlib

/-!
Shallow embedding of `spc_system_v2.py`, an SPC packaging-control engine:
the hourly sample generator (`mhConverter`), the p-chart control-limit
estimator (`calculate_control_limits`), the Nelson-rule inspector
(`inspection`), and the warm-up initialization shared by
`initialize_control_limits` and `run_simulation`.

Python floats are modelled by `ℚ` wherever the code only uses field
operations and order comparisons, and by `Option ℝ` (with `none` playing
the role of IEEE NaN) inside the estimator, whose `sqrt` leaves the
rationals.  Randomness is modelled by passing the sampling functions in
explicitly: `RandomSource.normal loc scale` is the value drawn from
`np.random.normal(loc, scale)` and `RandomSource.poisson lam` the value
drawn from `np.random.poisson(lam)`.
-/

/-- Message appended by `inspection` when Nelson rule 1 fires (source line 136). -/
def rule1msg : String := "⚠️ KURAL 1: Kontrol dışı nokta tespit edildi! (UCL/LCL aşıldı)"

/-- Message appended by `inspection` when Nelson rule 2 fires (source line 145). -/
def rule2msg : String := "⚠️ KURAL 2: Sistematik kayma tespit edildi! (7 ardışık nokta CL\u0027nin aynı tarafında)"

/-- Message appended by `inspection` for an increasing rule-3 trend (source line 154). -/
def rule3incMsg : String := "⚠️ KURAL 3: Artan trend tespit edildi! (6 ardışık artan nokta)"

/-- Message appended by `inspection` for a decreasing rule-3 trend (source line 156). -/
def rule3decMsg : String := "⚠️ KURAL 3: Azalan trend tespit edildi! (6 ardışık azalan nokta)"

/-- Message appended by `inspection` when Nelson rule 4 fires (source line 168). -/
def rule4msg : String := "⚠️ KURAL 4: Varyans artışı olabilir! (4 nokta uçta kümelenmiş)"

/-- The in-control marker appended when no rule fired (source line 171). -/
def okMsg : String := "✓ Süreç kontrol altında"

/-- Python slice `xs[-k:]`: the last `k` elements (the whole list when it is shorter). -/
def lastK (k : Nat) (xs : List ℚ) : List ℚ := xs.drop (xs.length - k)

/-- Rule 1 of `inspection` (source lines 134-136): the latest point is outside the limits. -/
def comment1 (data : List ℚ) (UCL LCL : ℚ) : List String :=
  if data.getLast! > UCL ∨ data.getLast! < LCL then [rule1msg] else []

/-- Rule 2 of `inspection` (source lines 138-145): the last 7 points sit on one side of CL. -/
def comment2 (data : List ℚ) (CL : ℚ) : List String :=
  if 7 ≤ data.length ∧
      ((∀ x ∈ lastK 7 data, x > CL) ∨ (∀ x ∈ lastK 7 data, x < CL)) then
    [rule2msg]
  else []

/-- Rule 3 of `inspection` (source lines 147-156): 6 strictly monotone consecutive points.
The adjacent comparisons `last_6[i] < last_6[i+1]` for `i < 5` are `List.Chain'` on the
last-6 window, and the `elif` in the source reports at most one direction. -/
def comment3 (data : List ℚ) : List String :=
  if 6 ≤ data.length then
    if List.Chain' (fun a b => a < b) (lastK 6 data) then [rule3incMsg]
    else if List.Chain' (fun a b => a > b) (lastK 6 data) then [rule3decMsg]
    else []
  else []

/-- The two-thirds point `CL + (UCL - CL) * 2/3` of `inspection` (source line 163). -/
def midUpper (CL UCL : ℚ) : ℚ := CL + (UCL - CL) * 2 / 3

/-- Rule 4 of `inspection` (source lines 158-168): the last 4 points are strictly inside
`(CL, UCL)` and strictly above the two-thirds point.  The source computes
`upper_zone` and `upper_extreme` and fires on `upper_extreme and upper_zone`. -/
def comment4 (data : List ℚ) (CL UCL : ℚ) : List String :=
  if 4 ≤ data.length ∧ (∀ x ∈ lastK 4 data, x > midUpper CL UCL) ∧
      (∀ x ∈ lastK 4 data, x > CL ∧ x < UCL) then
    [rule4msg]
  else []

/-- `inspection(data, CL, UCL, LCL)` (source lines 108-173): empty history returns the
empty list; otherwise the four rule checks append their messages in order, and the
in-control marker is returned exactly when no rule fired. -/
def inspection (data : List ℚ) (CL UCL LCL : ℚ) : List String :=
  if data.length = 0 then []
  else if comment1 data UCL LCL ++ comment2 data CL ++ comment3 data ++
      comment4 data CL UCL = [] then [okMsg]
  else comment1 data UCL LCL ++ comment2 data CL ++ comment3 data ++ comment4 data CL UCL

/-- The random draws consumed by one `mhConverter` call: `normal loc scale` is the value
returned by `np.random.normal(loc, scale)`, and `poisson lam` is the value returned by
`np.random.poisson(lam)` on the non-negative arguments numpy accepts.  For `lam < 0`
numpy raises `ValueError` instead of drawing; that error path is modelled inside
`mhConverter`, so this field is only consulted for `lam ≥ 0`. -/
structure RandomSource where
  normal : ℚ → ℚ → ℚ
  poisson : ℚ → ℕ

/-- Python `int()` applied to a float: truncation toward zero. -/
def pyInt (q : ℚ) : ℤ := if 0 ≤ q then ⌊q⌋ else ⌈q⌉

/-- `mhConverter` (source lines 24-71): converts monthly aggregates into one simulated
hourly `(production, defects, rate)` triple.  The call sites pass `days = 26`,
`shifts = 2`, `hours_per_shift = 8`.  The function is fallible: when the truncated
normal draw is negative and the defect rate positive, `expected_hourly_defects` is
negative and `np.random.poisson(lam)` on source line 66 raises
`ValueError: lam < 0` before the rate guard of line 69 is reached; the raised
exception is modelled by `none`. -/
def mhConverter (rng : RandomSource) (monthly_production monthly_defects : ℚ)
    (days shifts hours_per_shift : ℚ) (sigma : ℚ) : Option (ℤ × ℕ × ℚ) :=
  let total_hours := days * shifts * hours_per_shift
  let avg_hourly_production := monthly_production / total_hours
  let hourly_production :=
    pyInt (rng.normal avg_hourly_production (avg_hourly_production * sigma))
  let defect_rate := monthly_defects / monthly_production
  let expected_hourly_defects := defect_rate * (hourly_production : ℚ)
  if expected_hourly_defects < 0 then none
  else
    let hourly_defects := rng.poisson expected_hourly_defects
    let failure_rate :=
      if 0 < hourly_production then (hourly_defects : ℚ) / (hourly_production : ℚ) else 0
    some (hourly_production, hourly_defects, failure_rate)

/-- Arithmetic mean of a list of rationals (`List.sum / List.length`); the value of
`np.mean` on a non-empty input. -/
def meanQ (xs : List ℚ) : ℚ := xs.sum / xs.length

/-- `np.mean`: NaN (modelled `none`) on the empty list, the arithmetic mean otherwise. -/
noncomputable def npMean (xs : List ℚ) : Option ℝ :=
  if xs = [] then none else some ((meanQ xs : ℝ))

/-- Float addition with NaN (`none`) propagation. -/
noncomputable def fAdd : Option ℝ → Option ℝ → Option ℝ
  | some x, some y => some (x + y)
  | _, _ => none

/-- Float subtraction with NaN (`none`) propagation. -/
noncomputable def fSub : Option ℝ → Option ℝ → Option ℝ
  | some x, some y => some (x - y)
  | _, _ => none

/-- Float multiplication with NaN (`none`) propagation. -/
noncomputable def fMul : Option ℝ → Option ℝ → Option ℝ
  | some x, some y => some (x * y)
  | _, _ => none

/-- Float division with NaN (`none`) propagation.  Division of a real number by zero is
also sent to `none`; numpy would produce `±inf` for a nonzero numerator, a case no call
in this development reaches (the denominator is the mean of positive production counts,
or already NaN). -/
noncomputable def fDiv : Option ℝ → Option ℝ → Option ℝ
  | some x, some y => if y = 0 then none else some (x / y)
  | _, _ => none

/-- `np.sqrt` on a float: NaN propagates, a negative argument yields NaN. -/
noncomputable def fSqrt : Option ℝ → Option ℝ
  | some x => if x < 0 then none else some (Real.sqrt x)
  | none => none

/-- Python `max(0, x)` as used on LCL (source line 103): CPython keeps the first
argument unless the second compares strictly greater, so `max(0, nan) = 0`. -/
noncomputable def pyMax0 : Option ℝ → Option ℝ
  | some x => some (if 0 < x then x else 0)
  | none => some 0

/-- `calculate_control_limits` (source lines 74-105): p-chart centre line and ±3σ
limits from parallel lists of defect rates and production counts. -/
noncomputable def calculate_control_limits (failure_rates production_counts : List ℚ) :
    Option ℝ × Option ℝ × Option ℝ :=
  let CL := npMean failure_rates
  let avg_n := npMean production_counts
  let std_dev := fSqrt (fDiv (fMul CL (fSub (some 1) CL)) avg_n)
  let UCL := fAdd CL (fMul (some 3) std_dev)
  let LCL := fSub CL (fMul (some 3) std_dev)
  (CL, UCL, pyMax0 LCL)

/-- The standard deviation computed inside `calculate_control_limits` on non-NaN
inputs: `sqrt(CL * (1 - CL) / avg_n)`. -/
noncomputable def stdDev (rates counts : List ℚ) : ℝ :=
  Real.sqrt ((meanQ rates : ℝ) * (1 - (meanQ rates : ℝ)) / (meanQ counts : ℝ))

/-- The outcomes of the 50 warm-up `mhConverter` calls made by
`initialize_control_limits` (source lines 247-258): one call per warm-up hour with the
default chart-timing constants; each entry is `none` when that call raised. -/
def warmup_samples (rngs : ℕ → RandomSource) (mp md sigma : ℚ) :
    List (Option (ℤ × ℕ × ℚ)) :=
  (List.range 50).map fun i => mhConverter (rngs i) mp md 26 2 8 sigma

/-- `initialize_control_limits` (source lines 229-263): feed the rates and production
counts of the 50 warm-up samples to `calculate_control_limits`.  An exception raised by
any warm-up `mhConverter` call propagates, so the whole initialization is fallible:
the result is `none` exactly when some warm-up draw raised. -/
noncomputable def initialize_control_limits (rngs : ℕ → RandomSource) (mp md sigma : ℚ) :
    Option (Option ℝ × Option ℝ × Option ℝ) :=
  ((warmup_samples rngs mp md sigma).mapM (fun s => s)).map fun samples =>
    calculate_control_limits (samples.map fun s => s.2.2) (samples.map fun s => ((s.1 : ℚ)))

/-- The frozen control limits that `run_simulation` computes for a line (source lines
295-298): it calls `initialize_control_limits(..., sigma=0.03)` with the literal
in-control value, ignoring the live `sigma` parameter of `run_simulation`. -/
noncomputable def run_simulation_limits (rngs : ℕ → RandomSource) (live_sigma : ℚ)
    (mp md : ℚ) : Option (Option ℝ × Option ℝ × Option ℝ) :=
  initialize_control_limits rngs mp md (3 / 100)

/-- A random source whose normal draw is the constant 10.7, used to separate
truncation from rounding. -/
def rngTenPointSeven : RandomSource := ⟨fun _ _ => 107 / 10, fun _ => 0⟩

/-- A random source whose normal draw is the constant -10: truncation gives a negative
production count, which a positive defect rate turns into a negative poisson lam. -/
def rngNegTen : RandomSource := ⟨fun _ _ => -10, fun _ => 0⟩

lemma meanQ_nonneg (xs : List ℚ) (h : ∀ x ∈ xs, 0 ≤ x) : 0 ≤ meanQ xs :=
  div_nonneg (List.sum_nonneg h) (Nat.cast_nonneg _)

lemma meanQ_pos (xs : List ℚ) (hne : xs ≠ []) (h : ∀ x ∈ xs, 0 < x) : 0 < meanQ xs := by
  apply div_pos (List.sum_pos xs h hne)
  exact_mod_cast List.length_pos.mpr hne

lemma meanQ_le_one (xs : List ℚ) (hne : xs ≠ []) (h : ∀ x ∈ xs, x ≤ 1) : meanQ xs ≤ 1 := by
  have hl : (0:ℚ) < xs.length := by exact_mod_cast List.length_pos.mpr hne
  rw [meanQ, div_le_one hl]
  calc xs.sum ≤ xs.length • (1:ℚ) := List.sum_le_card_nsmul xs 1 h
    _ = xs.length := by simp

/-- Evaluation of `calculate_control_limits` on non-empty inputs whose denominator is
positive and whose variance argument is non-negative: the NaN paths are not taken. -/
lemma ccl_eval (rates counts : List ℚ) (hr : rates ≠ []) (hc : counts ≠ [])
    (ha : 0 < meanQ counts) (hq : 0 ≤ meanQ rates * (1 - meanQ rates)) :
    calculate_control_limits rates counts =
      (some ((meanQ rates : ℝ)),
       some ((meanQ rates : ℝ) + 3 * stdDev rates counts),
       some (if 0 < (meanQ rates : ℝ) - 3 * stdDev rates counts
             then (meanQ rates : ℝ) - 3 * stdDev rates counts else 0)) := by
  have ha' : ((meanQ counts : ℝ)) ≠ 0 := by exact_mod_cast ha.ne'
  have hq' : ¬((meanQ rates : ℝ) * (1 - (meanQ rates : ℝ)) / (meanQ counts : ℝ) < 0) := by
    push_neg
    apply div_nonneg _ (by exact_mod_cast ha.le)
    exact_mod_cast hq
  unfold calculate_control_limits npMean
  rw [if_neg hr, if_neg hc]
  simp only [fMul, fSub, fDiv, if_neg ha', fSqrt, if_neg hq', fAdd, pyMax0, stdDev]

/-- C9: for every input to `calculate_control_limits` with all rates in `[0, 1]` and all
production counts positive, the returned limits satisfy `0 ≤ LCL ≤ CL ≤ UCL`; in
particular LCL is never negative. -/
theorem claim_C9_limits_ordered (rates counts : List ℚ) (hr : rates ≠ []) (hc : counts ≠ [])
    (hrange : ∀ r ∈ rates, 0 ≤ r ∧ r ≤ 1) (hpos : ∀ c ∈ counts, 0 < c) :
    ∃ cl ucl lcl : ℝ,
      calculate_control_limits rates counts = (some cl, some ucl, some lcl) ∧
      0 ≤ lcl ∧ lcl ≤ cl ∧ cl ≤ ucl := by
  have hc0 : 0 ≤ meanQ rates := meanQ_nonneg rates fun r h => (hrange r h).1
  have hc1 : meanQ rates ≤ 1 := meanQ_le_one rates hr fun r h => (hrange r h).2
  have ha : 0 < meanQ counts := meanQ_pos counts hc hpos
  have hq : 0 ≤ meanQ rates * (1 - meanQ rates) := mul_nonneg hc0 (by linarith)
  have hs0 : 0 ≤ stdDev rates counts := Real.sqrt_nonneg _
  have hcr : (0:ℝ) ≤ (meanQ rates : ℝ) := by exact_mod_cast hc0
  refine ⟨_, _, _, ccl_eval rates counts hr hc ha hq, ?_, ?_, ?_⟩
  · split_ifs with h
    · linarith
    · linarith
  · split_ifs with h
    · linarith
    · exact hcr
  · linarith

/-- Witness for C9 at rates `[0]` and counts `[500]`. -/
theorem claim_C9_limits_ordered_witness :
    (([0] : List ℚ) ≠ [] ∧ ([500] : List ℚ) ≠ [] ∧ (∀ r ∈ ([0] : List ℚ), 0 ≤ r ∧ r ≤ 1) ∧
      (∀ c ∈ ([500] : List ℚ), 0 < c)) ∧
    ∃ cl ucl lcl : ℝ,
      calculate_control_limits [0] [500] = (some cl, some ucl, some lcl) ∧
      0 ≤ lcl ∧ lcl ≤ cl ∧ cl ≤ ucl :=
  ⟨⟨by decide, by decide, by decide, by decide⟩,
    claim_C9_limits_ordered [0] [500] (by decide) (by decide) (by decide) (by decide)⟩

/-- Evaluation of `calculate_control_limits` on 26 identical rates 0.01 with positive
counts: the centre line is exactly 0.01 and the standard deviation is strictly positive. -/
lemma c1_eval (counts : List ℚ) (hc : counts ≠ []) (hpos : ∀ c ∈ counts, 0 < c) :
    ∃ s : ℝ, 0 < s ∧
      calculate_control_limits (List.replicate 26 (1/100)) counts =
        (some ((1:ℝ)/100), some ((1:ℝ)/100 + 3 * s),
         some (if 0 < (1:ℝ)/100 - 3 * s then (1:ℝ)/100 - 3 * s else 0)) := by
  have hm : meanQ (List.replicate 26 (1/100)) = 1/100 := by
    simp [meanQ, List.sum_replicate]
    norm_num
  have hr : (List.replicate 26 ((1:ℚ)/100)) ≠ [] := by decide
  have ha : 0 < meanQ counts := meanQ_pos counts hc hpos
  have hq : 0 ≤ meanQ (List.replicate 26 (1/100)) * (1 - meanQ (List.replicate 26 (1/100))) := by
    rw [hm]
    norm_num
  have hspos : 0 < stdDev (List.replicate 26 (1/100)) counts := by
    rw [stdDev]
    apply Real.sqrt_pos.mpr
    rw [hm]
    apply div_pos
    · push_cast
      norm_num
    · exact_mod_cast ha
  have hev := ccl_eval _ counts hr hc ha hq
  rw [hm] at hev
  refine ⟨stdDev (List.replicate 26 (1/100)) counts, hspos, ?_⟩
  rw [hev]
  push_cast
  norm_num

/-- C1 (counterexample): at the constant 26-fold rate 0.01 with production counts all
400, `calculate_control_limits` does not return `CL = LCL = UCL = 0.01`, because the
standard deviation `sqrt(0.01 * 0.99 / 400)` is strictly positive. -/
theorem claim_C1_counterexample :
    ¬(calculate_control_limits (List.replicate 26 (1/100)) (List.replicate 26 400) =
      (some ((1:ℝ)/100), some ((1:ℝ)/100), some ((1:ℝ)/100))) := by
  obtain ⟨s, hs, hev⟩ := c1_eval (List.replicate 26 400) (by decide) (by decide)
  rw [hev]
  intro h
  have h2 : ((1:ℝ)/100 + 3 * s) = (1:ℝ)/100 := by
    have := congrArg (fun t : Option ℝ × Option ℝ × Option ℝ => t.2.1) h
    simpa using this
  linarith

/-- C1 (amended): for a constant rate sequence of 26 identical values 0.01 with any
positive production counts, `calculate_control_limits` returns `CL = 0.01` exactly,
while `UCL` is strictly above 0.01 and `LCL` lies in `[0, 0.01)`; the standard
deviation `sqrt(0.01 * 0.99 / avg_n)` is strictly positive, so LCL and UCL do not
collapse onto the centre line. -/
theorem claim_C1_amended (counts : List ℚ) (hc : counts ≠ []) (hpos : ∀ c ∈ counts, 0 < c) :
    ∃ ucl lcl : ℝ,
      calculate_control_limits (List.replicate 26 (1/100)) counts =
        (some ((1:ℝ)/100), some ucl, some lcl) ∧
      (1:ℝ)/100 < ucl ∧ 0 ≤ lcl ∧ lcl < (1:ℝ)/100 := by
  obtain ⟨s, hs, hev⟩ := c1_eval counts hc hpos
  refine ⟨_, _, hev, by linarith, ?_, ?_⟩
  · split_ifs with h
    · linarith
    · linarith
  · split_ifs with h
    · linarith
    · norm_num

/-- Witness for the amended C1 at 26 production counts of 400. -/
theorem claim_C1_amended_witness :
    (List.replicate 26 ((400:ℚ)) ≠ [] ∧ ∀ c ∈ List.replicate 26 ((400:ℚ)), 0 < c) ∧
    ∃ ucl lcl : ℝ,
      calculate_control_limits (List.replicate 26 (1/100)) (List.replicate 26 400) =
        (some ((1:ℝ)/100), some ucl, some lcl) ∧
      (1:ℝ)/100 < ucl ∧ 0 ≤ lcl ∧ lcl < (1:ℝ)/100 :=
  ⟨⟨by decide, by decide⟩,
    claim_C1_amended (List.replicate 26 400) (by decide) (by decide)⟩

/-- C4: called on empty sequences, `calculate_control_limits` does not raise an
invalid-input error.  `np.mean([])` is NaN (modelled `none`), which propagates to CL and
UCL, and Python `max(0, nan)` makes LCL equal to 0; the function silently returns this
triple, contrary to the fail-fast behaviour the specification asks for. -/
theorem claim_C4_empty_input_returns_nan :
    calculate_control_limits [] [] = (none, none, some 0) := rfl

/-- C2 (refuting evaluation): with the valid First Exterior configuration
(monthly production 800000, monthly defects 11000) and a normal draw of -10, the
truncated production count is -10, `expected_hourly_defects = 11/800 * (-10) < 0`, and
`np.random.poisson` on source line 66 raises before the rate guard of line 69 runs:
`mhConverter` fails on this input instead of returning a rate of 0. -/
theorem claim_C2_negative_lam_raises :
    mhConverter rngNegTen 800000 11000 26 2 8 (3/100) = none := by
  have hp : pyInt (-10 : ℚ) = -10 := by
    rw [pyInt, if_neg (by norm_num), show ((-10:ℚ)) = ((-10 : ℤ) : ℚ) by norm_num,
      Int.ceil_intCast]
  simp only [mhConverter, rngNegTen, hp]
  rw [if_pos (by norm_num)]

/-- Evaluation of `mhConverter` at a constant normal draw of 10.7 with no monthly
defects: the run succeeds with production count 10 (the truncation of 10.7). -/
lemma mh_ten_eval : mhConverter rngTenPointSeven 4160 0 26 2 8 (3/100) = some (10, 0, 0) := by
  have hp : pyInt ((107:ℚ)/10) = 10 := by
    rw [pyInt, if_pos (by norm_num)]
    norm_num
  simp only [mhConverter, rngTenPointSeven, hp]
  rw [if_neg (by norm_num)]
  norm_num

/-- C3 (counterexample): with a normal draw equal to 10.7, `mhConverter` succeeds and
the returned hourly production count is the truncation 10, which differs from the
nearest integer 11, so the production count is not the rounded sample. -/
theorem claim_C3_counterexample :
    mhConverter rngTenPointSeven 4160 0 26 2 8 (3/100) = some (10, 0, 0) ∧
    (10:ℤ) ≠ round (rngTenPointSeven.normal (4160 / (26 * 2 * 8))
      (4160 / (26 * 2 * 8) * (3/100))) := by
  refine ⟨mh_ten_eval, ?_⟩
  have h2 : round (rngTenPointSeven.normal (4160 / (26 * 2 * 8))
      (4160 / (26 * 2 * 8) * (3/100))) = 11 := by
    show round ((107:ℚ)/10) = 11
    rw [round_eq]
    norm_num
  rw [h2]
  decide

/-- C3 (amended): whenever `mhConverter` returns a sample, its hourly production count
equals the normal-distribution draw truncated toward zero (Python `int()` coercion). -/
theorem claim_C3_amended (rng : RandomSource) (mp md days shifts hours_per_shift sigma : ℚ) :
    ∀ s ∈ mhConverter rng mp md days shifts hours_per_shift sigma,
      s.1 = pyInt (rng.normal (mp / (days * shifts * hours_per_shift))
        (mp / (days * shifts * hours_per_shift) * sigma)) := by
  intro s hs
  rw [Option.mem_def] at hs
  simp only [mhConverter] at hs
  split at hs
  · exact absurd hs (by simp)
  · rw [Option.some_inj] at hs
    subst hs
    rfl

/-- Witness for the amended C3 at the successful run with normal draw 10.7. -/
theorem claim_C3_amended_witness :
    ((10:ℤ), (0:ℕ), (0:ℚ)) ∈ mhConverter rngTenPointSeven 4160 0 26 2 8 (3/100) ∧
    ((10:ℤ), (0:ℕ), (0:ℚ)).1 = pyInt (rngTenPointSeven.normal (4160 / (26 * 2 * 8))
      (4160 / (26 * 2 * 8) * (3/100))) :=
  ⟨by rw [Option.mem_def]; exact mh_ten_eval,
    claim_C3_amended rngTenPointSeven 4160 0 26 2 8 (3/100) ((10:ℤ), (0:ℕ), (0:ℚ))
      (by rw [Option.mem_def]; exact mh_ten_eval)⟩

/-- C5: the frozen limits `run_simulation` computes for a line come from exactly 50
warm-up samples drawn with the hard-coded in-control sigma 0.03 (source line 296), and
they do not depend on the live sigma passed to `run_simulation`. -/
theorem claim_C5_warmup_sigma_frozen (rngs : ℕ → RandomSource)
    (live_sigma live_sigma2 mp md : ℚ) :
    run_simulation_limits rngs live_sigma mp md =
      ((warmup_samples rngs mp md (3/100)).mapM (fun s => s)).map (fun samples =>
        calculate_control_limits (samples.map fun s => s.2.2)
          (samples.map fun s => ((s.1 : ℚ)))) ∧
    (warmup_samples rngs mp md (3/100)).length = 50 ∧
    run_simulation_limits rngs live_sigma mp md =
      run_simulation_limits rngs live_sigma2 mp md :=
  ⟨rfl, by simp [warmup_samples], rfl⟩

lemma length_ne_zero_of_ne_nil {data : List ℚ} (h : data ≠ []) : ¬(data.length = 0) :=
  fun h0 => h (List.length_eq_zero.mp h0)

lemma comment1_eq_or (data : List ℚ) (UCL LCL : ℚ) :
    comment1 data UCL LCL = [rule1msg] ∨ comment1 data UCL LCL = [] := by
  unfold comment1
  split
  · exact Or.inl rfl
  · exact Or.inr rfl

lemma comment2_eq_or (data : List ℚ) (CL : ℚ) :
    comment2 data CL = [rule2msg] ∨ comment2 data CL = [] := by
  unfold comment2
  split
  · exact Or.inl rfl
  · exact Or.inr rfl

lemma comment3_eq_or (data : List ℚ) :
    comment3 data = [rule3incMsg] ∨ comment3 data = [rule3decMsg] ∨ comment3 data = [] := by
  unfold comment3
  split
  · split
    · exact Or.inl rfl
    · split
      · exact Or.inr (Or.inl rfl)
      · exact Or.inr (Or.inr rfl)
  · exact Or.inr (Or.inr rfl)

lemma comment4_eq_or (data : List ℚ) (CL UCL : ℚ) :
    comment4 data CL UCL = [rule4msg] ∨ comment4 data CL UCL = [] := by
  unfold comment4
  split
  · exact Or.inl rfl
  · exact Or.inr rfl

lemma mem_comment1 (data : List ℚ) (UCL LCL : ℚ) :
    rule1msg ∈ comment1 data UCL LCL ↔ (data.getLast! > UCL ∨ data.getLast! < LCL) := by
  unfold comment1
  split <;> simp_all

lemma mem_comment4 (data : List ℚ) (CL UCL : ℚ) :
    rule4msg ∈ comment4 data CL UCL ↔
      (4 ≤ data.length ∧ (∀ x ∈ lastK 4 data, x > midUpper CL UCL) ∧
        (∀ x ∈ lastK 4 data, x > CL ∧ x < UCL)) := by
  unfold comment4
  split <;> simp_all

lemma eq_of_mem_comment1 (data : List ℚ) (UCL LCL : ℚ) (m : String)
    (h : m ∈ comment1 data UCL LCL) : m = rule1msg := by
  rcases comment1_eq_or data UCL LCL with he | he <;> rw [he] at h <;> simp_all

lemma eq_of_mem_comment2 (data : List ℚ) (CL : ℚ) (m : String)
    (h : m ∈ comment2 data CL) : m = rule2msg := by
  rcases comment2_eq_or data CL with he | he <;> rw [he] at h <;> simp_all

lemma eq_of_mem_comment3 (data : List ℚ) (m : String)
    (h : m ∈ comment3 data) : m = rule3incMsg ∨ m = rule3decMsg := by
  rcases comment3_eq_or data with he | he | he <;> rw [he] at h <;> simp_all

lemma eq_of_mem_comment4 (data : List ℚ) (CL UCL : ℚ) (m : String)
    (h : m ∈ comment4 data CL UCL) : m = rule4msg := by
  rcases comment4_eq_or data CL UCL with he | he <;> rw [he] at h <;> simp_all

/-- A message other than the in-control marker is in the result of `inspection` on a
non-empty history exactly when one of the four rule checks produced it. -/
lemma mem_inspection_iff (data : List ℚ) (CL UCL LCL : ℚ) (hne : data ≠ []) (m : String)
    (hm : m ≠ okMsg) :
    m ∈ inspection data CL UCL LCL ↔
      m ∈ comment1 data UCL LCL ∨ m ∈ comment2 data CL ∨ m ∈ comment3 data ∨
        m ∈ comment4 data CL UCL := by
  unfold inspection
  rw [if_neg (length_ne_zero_of_ne_nil hne)]
  split
  · rename_i hnil
    simp only [List.append_eq_nil] at hnil
    simp [hnil.1.1.1, hnil.1.1.2, hnil.1.2, hnil.2, hm]
  · simp [List.mem_append]

/-- C6: for every non-empty rate history and limits, the rule-1 message appears in the
result of `inspection` exactly when the most recent rate is strictly above UCL or
strictly below LCL; with ordered limits, a most recent rate equal to UCL or to LCL does
not fire rule 1. -/
theorem claim_C6_rule1_strict (data : List ℚ) (CL UCL LCL : ℚ) (hne : data ≠ []) :
    (rule1msg ∈ inspection data CL UCL LCL ↔
      data.getLast! > UCL ∨ data.getLast! < LCL) ∧
    (LCL ≤ UCL → data.getLast! = UCL → rule1msg ∉ inspection data CL UCL LCL) ∧
    (LCL ≤ UCL → data.getLast! = LCL → rule1msg ∉ inspection data CL UCL LCL) := by
  have hmain : rule1msg ∈ inspection data CL UCL LCL ↔
      data.getLast! > UCL ∨ data.getLast! < LCL := by
    rw [mem_inspection_iff data CL UCL LCL hne rule1msg (by decide)]
    constructor
    · rintro (h | h | h | h)
      · exact (mem_comment1 data UCL LCL).mp h
      · exact absurd (eq_of_mem_comment2 data CL rule1msg h) (by decide)
      · rcases eq_of_mem_comment3 data rule1msg h with hx | hx <;> exact absurd hx (by decide)
      · exact absurd (eq_of_mem_comment4 data CL UCL rule1msg h) (by decide)
    · intro h
      exact Or.inl ((mem_comment1 data UCL LCL).mpr h)
  refine ⟨hmain, fun hle heq hmem => ?_, fun hle heq hmem => ?_⟩
  · rcases hmain.mp hmem with h | h
    · rw [heq] at h
      exact lt_irrefl _ h
    · rw [heq] at h
      exact absurd hle (not_le.mpr h)
  · rcases hmain.mp hmem with h | h
    · rw [heq] at h
      exact absurd hle (not_le.mpr h)
    · rw [heq] at h
      exact lt_irrefl _ h

/-- Witness for C6 at the one-point history `[1]` with all limits 0: rule 1 fires. -/
theorem claim_C6_rule1_strict_witness :
    ([(1:ℚ)] ≠ []) ∧
    (rule1msg ∈ inspection [(1:ℚ)] 0 0 0 ↔
      [(1:ℚ)].getLast! > 0 ∨ [(1:ℚ)].getLast! < 0) :=
  ⟨by decide, (claim_C6_rule1_strict [(1:ℚ)] 0 0 0 (by decide)).1⟩

/-- C7: for histories of length at least 4, the rule-4 message appears exactly when each
of the last 4 rates is strictly between CL and UCL and strictly above the two-thirds
point `CL + (UCL - CL) * 2/3`; shorter histories never produce it, and a last-4 point
equal to CL prevents it. -/
theorem claim_C7_rule4_condition (data : List ℚ) (CL UCL LCL : ℚ) :
    (4 ≤ data.length →
      (rule4msg ∈ inspection data CL UCL LCL ↔
        ∀ x ∈ lastK 4 data, (CL < x ∧ x < UCL) ∧ midUpper CL UCL < x)) ∧
    (data.length < 4 → rule4msg ∉ inspection data CL UCL LCL) ∧
    (CL ∈ lastK 4 data → rule4msg ∉ inspection data CL UCL LCL) := by
  have key : ∀ _ : data ≠ [],
      (rule4msg ∈ inspection data CL UCL LCL ↔
        (4 ≤ data.length ∧ (∀ x ∈ lastK 4 data, x > midUpper CL UCL) ∧
          (∀ x ∈ lastK 4 data, x > CL ∧ x < UCL))) := by
    intro hne
    rw [mem_inspection_iff data CL UCL LCL hne rule4msg (by decide)]
    constructor
    · rintro (h | h | h | h)
      · exact absurd (eq_of_mem_comment1 data UCL LCL rule4msg h) (by decide)
      · exact absurd (eq_of_mem_comment2 data CL rule4msg h) (by decide)
      · rcases eq_of_mem_comment3 data rule4msg h with hx | hx <;> exact absurd hx (by decide)
      · exact (mem_comment4 data CL UCL).mp h
    · intro h
      exact Or.inr (Or.inr (Or.inr ((mem_comment4 data CL UCL).mpr h)))
  refine ⟨fun h4 => ?_, fun hlt hmem => ?_, fun hCL hmem => ?_⟩
  · have hne : data ≠ [] := by
      intro h
      rw [h] at h4
      simp at h4
    rw [key hne]
    constructor
    · rintro ⟨_, hext, hzone⟩ x hx
      exact ⟨⟨(hzone x hx).1, (hzone x hx).2⟩, hext x hx⟩
    · intro hall
      exact ⟨h4, fun x hx => (hall x hx).2, fun x hx => ⟨(hall x hx).1.1, (hall x hx).1.2⟩⟩
  · rcases List.eq_nil_or_concat data with hnil | _
    · rw [hnil] at hmem
      simp [inspection] at hmem
    · have hne : data ≠ [] := by
        intro h
        rw [h] at hlt
        rw [h] at hmem
        simp [inspection] at hmem
      obtain ⟨h4, _, _⟩ := (key hne).mp hmem
      omega
  · by_cases hne : data = []
    · rw [hne] at hCL
      simp [lastK] at hCL
    · obtain ⟨_, _, hzone⟩ := (key hne).mp hmem
      exact lt_irrefl CL (hzone CL hCL).1

/-- Witness for C7 at the history `[2, 2, 2, 2]` with CL 0 and UCL 10. -/
theorem claim_C7_rule4_condition_witness :
    (4 ≤ ([2, 2, 2, 2] : List ℚ).length) ∧
    (rule4msg ∈ inspection [2, 2, 2, 2] 0 10 0 ↔
      ∀ x ∈ lastK 4 ([2, 2, 2, 2] : List ℚ), ((0:ℚ) < x ∧ x < 10) ∧ midUpper 0 10 < x) :=
  ⟨by decide, (claim_C7_rule4_condition [2, 2, 2, 2] 0 10 0).1 (by decide)⟩

/-- C8: `inspection` returns the empty list on the empty history (no in-control marker),
and on a non-empty history on which none of the four rule conditions holds it returns
exactly the single in-control marker. -/
theorem claim_C8_ok_marker :
    (∀ CL UCL LCL : ℚ, inspection [] CL UCL LCL = []) ∧
    (∀ (data : List ℚ) (CL UCL LCL : ℚ), data ≠ [] →
      ¬(data.getLast! > UCL ∨ data.getLast! < LCL) →
      ¬(7 ≤ data.length ∧
        ((∀ x ∈ lastK 7 data, x > CL) ∨ (∀ x ∈ lastK 7 data, x < CL))) →
      ¬(6 ≤ data.length ∧ (List.Chain' (fun a b => a < b) (lastK 6 data) ∨
        List.Chain' (fun a b => a > b) (lastK 6 data))) →
      ¬(4 ≤ data.length ∧ (∀ x ∈ lastK 4 data, x > midUpper CL UCL) ∧
        (∀ x ∈ lastK 4 data, x > CL ∧ x < UCL)) →
      inspection data CL UCL LCL = [okMsg]) := by
  constructor
  · intro CL UCL LCL
    rfl
  · intro data CL UCL LCL hne h1 h2 h3 h4
    have e1 : comment1 data UCL LCL = [] := by
      unfold comment1
      rw [if_neg h1]
    have e2 : comment2 data CL = [] := by
      unfold comment2
      rw [if_neg h2]
    have e3 : comment3 data = [] := by
      unfold comment3
      split
      · rename_i h6
        have hni : ¬ List.Chain' (fun a b => a < b) (lastK 6 data) :=
          fun hinc => h3 ⟨h6, Or.inl hinc⟩
        have hnd : ¬ List.Chain' (fun a b => a > b) (lastK 6 data) :=
          fun hdec => h3 ⟨h6, Or.inr hdec⟩
        rw [if_neg hni, if_neg hnd]
      · rfl
    have e4 : comment4 data CL UCL = [] := by
      unfold comment4
      rw [if_neg h4]
    unfold inspection
    rw [if_neg (length_ne_zero_of_ne_nil hne), e1, e2, e3, e4]
    rfl

/-- Witness for C8 at the one-point history `[1]` with CL 2, UCL 3, LCL 0. -/
theorem claim_C8_ok_marker_witness :
    (([(1:ℚ)] ≠ []) ∧
      ¬([(1:ℚ)].getLast! > 3 ∨ [(1:ℚ)].getLast! < 0) ∧
      ¬(7 ≤ ([(1:ℚ)] : List ℚ).length ∧
        ((∀ x ∈ lastK 7 [(1:ℚ)], x > 2) ∨ (∀ x ∈ lastK 7 [(1:ℚ)], x < 2))) ∧
      ¬(6 ≤ ([(1:ℚ)] : List ℚ).length ∧
        (List.Chain' (fun a b => a < b) (lastK 6 [(1:ℚ)]) ∨
          List.Chain' (fun a b => a > b) (lastK 6 [(1:ℚ)]))) ∧
      ¬(4 ≤ ([(1:ℚ)] : List ℚ).length ∧ (∀ x ∈ lastK 4 [(1:ℚ)], x > midUpper 2 3) ∧
        (∀ x ∈ lastK 4 [(1:ℚ)], x > 2 ∧ x < 3))) ∧
    inspection [(1:ℚ)] 2 3 0 = [okMsg] :=
  ⟨⟨by decide, by decide, by decide, by decide, by decide⟩,
    claim_C8_ok_marker.2 [(1:ℚ)] 2 3 0 (by decide) (by decide) (by decide) (by decide)
      (by decide)⟩

/-- C10: on every non-empty history the result of `inspection` has between 1 and 4
entries, contains each rule message at most once, and never reports both an increasing
and a decreasing rule-3 trend at the same time. -/
theorem claim_C10_result_bounds (data : List ℚ) (CL UCL LCL : ℚ) (hne : data ≠ []) :
    (1 ≤ (inspection data CL UCL LCL).length ∧ (inspection data CL UCL LCL).length ≤ 4) ∧
    (inspection data CL UCL LCL).count rule1msg ≤ 1 ∧
    (inspection data CL UCL LCL).count rule2msg ≤ 1 ∧
    (inspection data CL UCL LCL).count rule3incMsg ≤ 1 ∧
    (inspection data CL UCL LCL).count rule3decMsg ≤ 1 ∧
    (inspection data CL UCL LCL).count rule4msg ≤ 1 ∧
    ¬(rule3incMsg ∈ inspection data CL UCL LCL ∧
      rule3decMsg ∈ inspection data CL UCL LCL) := by
  unfold inspection
  rw [if_neg (length_ne_zero_of_ne_nil hne)]
  rcases comment1_eq_or data UCL LCL with h1 | h1 <;>
    rcases comment2_eq_or data CL with h2 | h2 <;>
      rcases comment3_eq_or data with h3 | h3 | h3 <;>
        rcases comment4_eq_or data CL UCL with h4 | h4 <;>
          rw [h1, h2, h3, h4] <;> decide

/-- Witness for C10 at the one-point history `[5]` with all limits 0. -/
theorem claim_C10_result_bounds_witness :
    ([(5:ℚ)] ≠ []) ∧
    ((1 ≤ (inspection [(5:ℚ)] 0 0 0).length ∧ (inspection [(5:ℚ)] 0 0 0).length ≤ 4) ∧
      (inspection [(5:ℚ)] 0 0 0).count rule1msg ≤ 1 ∧
      (inspection [(5:ℚ)] 0 0 0).count rule2msg ≤ 1 ∧
      (inspection [(5:ℚ)] 0 0 0).count rule3incMsg ≤ 1 ∧
      (inspection [(5:ℚ)] 0 0 0).count rule3decMsg ≤ 1 ∧
      (inspection [(5:ℚ)] 0 0 0).count rule4msg ≤ 1 ∧
      ¬(rule3incMsg ∈ inspection [(5:ℚ)] 0 0 0 ∧
        rule3decMsg ∈ inspection [(5:ℚ)] 0 0 0)) :=
  ⟨by decide, claim_C10_result_bounds [(5:ℚ)] 0 0 0 (by decide)⟩
